import Mathlib

/-!
Shallow embedding of the secure-destruction core of
`src/secure-file-shredder.py` together with proofs about it.

Conventions of the embedding:
- byte strings (Python `bytes`) are `List Nat` (each element a byte value);
- paths (Python `str`) are `List Char`;
- `os.urandom` is modeled by an explicit entropy source so that randomness
  becomes a universally quantified parameter;
- fallible operations are modeled by explicit outcome structures, mirroring
  how the source converts every raised exception into a boolean result at
  the `try/except` boundary of each operation.
-/

namespace Shredder

/-- Source of random bytes: `draw c i` is the byte at position `i` produced by
the `c`-th call to `os.urandom` during a run.  Quantifying over `Entropy`
quantifies over all random behaviours. -/
structure Entropy where
  draw : Nat → Nat → Nat

/-- Model of `os.urandom n` for the `c`-th call of a run: a list of `n` bytes
from the entropy source. -/
def urandomCall (e : Entropy) (c n : Nat) : List Nat :=
  (List.range n).map (e.draw c)

/-- A fixed deterministic entropy source, used to evaluate the embedding on
concrete inputs. -/
def zeroEntropy : Entropy := ⟨fun _ _ => 0⟩

/-- Python `bytes * n`: `n` concatenated copies of the block. -/
def pyRepeat (b : List Nat) : Nat → List Nat
  | 0 => []
  | n + 1 => b ++ pyRepeat b n

/-- Python `~x & 0xFF` for a nonnegative integer `x`: the low byte of the
bitwise complement, which equals `255 - (x mod 256)`. -/
def pyCompl (x : Nat) : Nat := 255 - x % 256

theorem urandomCall_length (e : Entropy) (c n : Nat) :
    (urandomCall e c n).length = n := by
  simp [urandomCall]

theorem pyRepeat_length (b : List Nat) (n : Nat) :
    (pyRepeat b n).length = n * b.length := by
  induction n with
  | zero => simp [pyRepeat]
  | succ n ih => simp [pyRepeat, ih, Nat.succ_mul]; omega

/-- Entry appended by the middle loop of `_generate_gutmann_patterns` for loop
index `i` (source lines 77-81): four copies of `i mod 256` for even `i`, four
copies of `(i*16) mod 256` for odd `i`. -/
def gutmannEntry (i : Nat) : List Nat :=
  if i % 2 == 0 then List.replicate 4 (i % 256) else List.replicate 4 ((i * 16) % 256)

/-- The 15 deterministic middle entries of the Gutmann table, for loop indices
4 through 18. -/
def gutmannMid : List (List Nat) := (List.range' 4 15).map gutmannEntry

/-- Embedding of `_generate_gutmann_patterns` (the leading underscore of the
source name is dropped): 4 single random bytes, 15 fixed four-byte entries,
their 15 bytewise complements (the loop over indices 19..33 complements
`patterns[i-15]`, which are exactly the middle entries in order), and one
final single random byte. -/
def generate_gutmann_patterns (e : Entropy) : List (List Nat) :=
  ((List.range 4).map fun c => urandomCall e c 1)
    ++ gutmannMid
    ++ gutmannMid.map (List.map pyCompl)
    ++ [urandomCall e 4 1]

/-- Tagged form of the `pattern` field of a pattern-catalog entry: raw bytes,
a list of byte blocks, or one of the marker strings `random` / `gutmann`. -/
inductive PatternConfig
  | bytesPat (bs : List Nat)
  | listPat (blocks : List (List Nat))
  | randomPat
  | gutmannPat
deriving DecidableEq

/-- The three blocks of the DoD 5220.22-M catalog entry. -/
def dodBlocks : List (List Nat) := [[0x55], [0xAA], [0x92, 0x49, 0x24, 0x92]]

/-- The pattern catalog of `DEFAULT_CONFIG["overwrite_patterns"]`: Zero Fill,
One Fill, DoD 5220.22-M, Random Data, Gutmann. -/
def overwrite_patterns : List PatternConfig :=
  [.bytesPat [0x00], .bytesPat [0xFF], .listPat dodBlocks, .randomPat, .gutmannPat]

/-- Embedding of `get_overwrite_pattern`.  The `cfg` argument is the result of
the catalog lookup by pattern name (`none` when the name is not found); `gut`
is the precomputed Gutmann table held by the application object.  Branches in
source order: the not-found fallback, the `random` marker, the `gutmann`
marker, a list of blocks, raw bytes. -/
def get_overwrite_pattern (e : Entropy) (gut : List (List Nat))
    (cfg : Option PatternConfig) (pass_num file_size : Nat) : List Nat :=
  match cfg with
  | none => pyRepeat (urandomCall e 0 1) file_size
  | some .randomPat => urandomCall e 0 file_size
  | some .gutmannPat =>
      pyRepeat (gut.getD (pass_num % gut.length) [])
        (file_size / (gut.getD 0 []).length + 1)
  | some (.listPat blocks) =>
      pyRepeat (blocks.getD (pass_num % blocks.length) [])
        (file_size / (blocks.getD 0 []).length + 1)
  | some (.bytesPat bs) => pyRepeat bs file_size

/-! ## Path guard -/

/-- Paths are modeled as lists of characters. -/
abbrev Str := List Char

/-- Python `s.startswith(d)`: the first `d.length` characters of `s` form `d`. -/
def str_startswith (s d : Str) : Bool := s.take d.length == d

/-- The fixed user-directory allowlist of `is_protected_location` (source
lines 289-294), after `os.path.abspath` resolution: the home directory and its
Desktop, Documents and Downloads subdirectories. -/
def user_dirs (home : Str) : List Str :=
  [home, home ++ "/Desktop".toList, home ++ "/Documents".toList,
    home ++ "/Downloads".toList]

/-- Embedding of `is_protected_location`.  Inputs are the resolved absolute
forms: `home` the expanded user home, `protected_dirs` the configured
protected set after `os.path.abspath`, `abs_path` the candidate after
`os.path.abspath`.  The allowlist loop runs first and returns `false` on a
match; the denylist loop skips falsy (empty) entries. -/
def is_protected_location (home : Str) (protected_dirs : List Str)
    (abs_path : Str) : Bool :=
  if (user_dirs home).any (fun d => str_startswith abs_path d) then false
  else protected_dirs.any (fun d => !(d == []) && str_startswith abs_path d)

/-- A path lies under a directory when it equals the directory or continues it
past a path separator. -/
def liesUnder (p d : Str) : Bool := p == d || str_startswith p (d ++ "/".toList)

/-! ## Verification, lock probe, shred executor -/

/-- A Python value appearing in the verification expression: a bool or an int. -/
inductive PyVal
  | vbool (b : Bool)
  | vint (n : Nat)

/-- Python `v == 0` for such a value; `True == 0` is `False` because Python
bools compare as the integers 1 and 0. -/
def pyEqZero : PyVal → Bool
  | .vbool b => !b
  | .vint n => n == 0

/-- Embedding of `verify_shred`.  The source expression is
`not (os.path.exists(p) or os.path.getsize(p)) == 0`, which Python parses as
`not ((os.path.exists(p) or os.path.getsize(p)) == 0)`.  When the path exists
the `or` short-circuits to the Python value `True` and `True == 0` is `False`,
so the function returns `True`.  When the path does not exist,
`os.path.getsize` raises `FileNotFoundError` and the handler returns `True`. -/
def verify_shred (present : Bool) : Bool :=
  if present then !(pyEqZero (PyVal.vbool true)) else true

/-- State of one candidate file as the executor observes it: whether the path
exists, whether it can be opened for read-write (`r+b`), whether another
process holds an exclusive lock on it, whether the lock probe dies with an
error that is not an `IOError`, and the bytes held on storage.  Renames and
timestamps touched by `destroy_metadata` are not part of the state. -/
structure FSFile where
  present : Bool
  openRW : Bool
  lockHeld : Bool
  probeErr : Bool
  content : List Nat
deriving DecidableEq

/-- Embedding of `is_file_locked`.  The probe opens the file `r+b` and
attempts a non-blocking exclusive lock.  A failed open, or an unexpected
non-`IOError` failure during probing, reaches the outer handler, which
returns `False`; a lock held by another process raises `IOError` in the inner
handler, which returns `True`. -/
def is_file_locked (f : FSFile) : Bool :=
  if !f.openRW then false
  else if f.probeErr then false
  else f.lockHeld

/-- Number of iterations of Python `range(0, S, C)` for `C > 0`: the count of
multiples of `C` below `S`, which is `S` divided by `C` rounded up. -/
def numChunks (S C : Nat) : Nat := (S + C - 1) / C

/-- The chunk written at offset `pos` in the chunked branch of `shred_file`
(source line 498): a `C`-byte slice of the pattern starting at `pos` when the
pattern is longer than one byte, else the first `C` bytes. -/
def chunkAt (pattern : List Nat) (C pos : Nat) : List Nat :=
  if 1 < pattern.length then (pattern.drop pos).take C else pattern.take C

/-- The sequence of `file.write` payloads of one overwrite pass in
`shred_file` (source lines 495-502): chunked when `file_size > chunk_size*10`,
otherwise a single write of the pattern truncated to the file size. -/
def writesForPass (pattern : List Nat) (S C : Nat) : List (List Nat) :=
  if C * 10 < S then
    (List.range (numChunks S C)).map (fun j => chunkAt pattern C (j * C))
  else [pattern.take S]

/-- Effect of one pass on the stored bytes: the writes land consecutively from
offset 0, overwriting that region and extending the file when they run past
its end. -/
def applyPass (writes : List (List Nat)) (old : List Nat) : List Nat :=
  writes.flatten ++ old.drop writes.flatten.length

/-- Classified failure of one shred, named after the error kinds of the
specification; the source signals each by a log line or a raised-and-caught
exception inside `shred_file`. -/
inductive ShredError
  | pathNotFound
  | fileLocked
  | openFailed
  | verificationFailed
deriving DecidableEq

/-- Result of `shred_file` on one file: the returned boolean, the failure
classification, and the resulting file state. -/
structure ShredOutcome where
  success : Bool
  err : Option ShredError
  fs : FSFile
deriving DecidableEq

/-- Options carried by the application object into one shred call: the
entropy source, the selected catalog pattern (result of the name lookup),
pass count, verify and destroy-metadata flags, and the configured chunk
size. -/
structure ShredParams where
  e : Entropy
  cfg : Option PatternConfig
  passes : Nat
  verify : Bool
  destroy_metadata : Bool
  chunk_size : Nat

/-- Embedding of `shred_file`.  Steps in source order: existence check, lock
probe (a held lock raises, caught as a failure), size capture before any
mutation, metadata destruction (touches only name and timestamps, which are
outside `FSFile`), open for read-write (a failed open raises, caught as a
failure), the per-pass overwrite writes, `os.remove`, and the verification
re-check, whose helper `verify_shred` never reports failure. -/
def shred_file (P : ShredParams) (f : FSFile) : ShredOutcome :=
  if !f.present then ⟨false, some .pathNotFound, f⟩
  else if is_file_locked f then ⟨false, some .fileLocked, f⟩
  else
    let S := f.content.length
    if !f.openRW then ⟨false, some .openFailed, f⟩
    else
      let final := (List.range P.passes).foldl
        (fun c i =>
          applyPass
            (writesForPass
              (get_overwrite_pattern P.e (generate_gutmann_patterns P.e) P.cfg i S)
              S P.chunk_size)
            c)
        f.content
      let f2 : FSFile := ⟨false, f.openRW, f.lockHeld, f.probeErr, final⟩
      if P.verify && !(verify_shred f2.present) then
        ⟨false, some .verificationFailed, f2⟩
      else ⟨true, none, f2⟩

/-! ## Batch scheduler -/

/-- The boolean each worker produces for one file: the return value of
`shred_file`, which never lets an exception escape. -/
def shredBool (P : ShredParams) (f : FSFile) : Bool := (shred_file P f).success

/-- The stream of per-file results `shred_files_threaded` consumes.  With more
than one worker and more than one file the futures complete in an arbitrary
order, modeled by the index list `order`; otherwise the files are processed
sequentially in submission order. -/
def batch_outcomes (P : ShredParams) (max_workers : Nat) (files : List FSFile)
    (order : List Nat) : List Bool :=
  if 1 < max_workers && 1 < files.length then
    order.map (fun i => (files.map (shredBool P)).getD i false)
  else files.map (shredBool P)

/-- Embedding of the counting done by `shred_files_threaded`: the number of
files reported shredded successfully and the number reported failed. -/
def shred_files_threaded (P : ShredParams) (max_workers : Nat)
    (files : List FSFile) (order : List Nat) : Nat × Nat :=
  ((batch_outcomes P max_workers files order).count true,
    (batch_outcomes P max_workers files order).count false)

/-! ## Free-space wiper -/

/-- Trace of one `wipe_free_space` call: whether the temporary fill file was
created, whether the fill loop ran to completion without raising, whether the
temporary file was handed to `shred_file`, the total number of bytes requested
from `os.urandom` by the fill loop, and the returned boolean. -/
structure WipeResult where
  tempCreated : Bool
  fillCompleted : Bool
  tempShredded : Bool
  totalRequested : Nat
  success : Bool
deriving DecidableEq

/-- One fill loop of `wipe_free_space`, iterated over `range(0, int(wipe_size),
chunk_size)`.  The target `wipe_size = free_space * 0.95` is a Python float;
it is represented exactly here as `ws20 / 20` with `ws20 = free_space * 19`,
and `t` is `f.tell()`, the bytes written so far.  Each iteration writes
`os.urandom(min(chunk_size, wipe_size - f.tell()))`: when the remainder is at
least `chunk_size` the `min` picks the integer chunk size and the write
proceeds; otherwise the `min` yields a float, `os.urandom` rejects it with
`TypeError`, and the loop aborts with `t` bytes requested in total. -/
def fill_go (C ws20 : Nat) : Nat → Nat → Nat × Bool
  | 0, t => (t, true)
  | k + 1, t =>
      if t * 20 + C * 20 ≤ ws20 then fill_go C ws20 k (t + C)
      else (t, false)

/-- Total bytes requested by the fill step and whether it completed. -/
def fillTotal (C ws20 : Nat) : Nat × Bool :=
  fill_go C ws20 (numChunks (ws20 / 20) C) 0

/-- Embedding of `wipe_free_space`.  `freeQuery` is the reported free space of
the volume (`none` when the query itself fails, which raises before the
temporary file is opened).  A non-positive report raises before the open as
well.  Otherwise the temporary file is created, the fill loop runs, and only
when it completes without raising is the temporary file handed to
`shred_file` with 3 passes, verification and metadata destruction; an
interrupted fill jumps to the handler and returns `False` with the temporary
file left in place. -/
def wipe_free_space (P : ShredParams) (freeQuery : Option Int) : WipeResult :=
  match freeQuery with
  | none => ⟨false, false, false, 0, false⟩
  | some free =>
      if free ≤ 0 then ⟨false, false, false, 0, false⟩
      else
        let ws20 := free.toNat * 19
        let r := fillTotal P.chunk_size ws20
        if r.2 then
          let temp : FSFile := ⟨true, true, false, false, urandomCall P.e 5 r.1⟩
          let oc := shred_file ⟨P.e, P.cfg, 3, true, true, P.chunk_size⟩ temp
          ⟨true, true, true, r.1, oc.success⟩
        else ⟨true, false, false, r.1, false⟩

/-! ## Helper lemmas -/

theorem liesUnder_startswith (p d : Str) (h : liesUnder p d = true) :
    str_startswith p d = true := by
  have hor : p = d ∨ str_startswith p (d ++ "/".toList) = true := by
    simpa [liesUnder] using h
  rcases hor with hpd | h
  · subst hpd
    simp [str_startswith]
  · unfold str_startswith at h ⊢
    have h' : p.take (d ++ "/".toList).length = d ++ "/".toList := eq_of_beq h
    have h2 : p.take d.length = (p.take (d ++ "/".toList).length).take d.length := by
      rw [List.take_take]
      congr 1
      simp
    rw [h2, h']
    have h3 : (d ++ "/".toList).take d.length = d := List.take_left ..
    rw [h3]
    simp

theorem count_true_add_count_false (l : List Bool) :
    l.count true + l.count false = l.length := by
  induction l with
  | nil => simp
  | cons b l ih =>
    cases b <;> simp [List.count_cons] <;> omega

/-! ## Claim theorems -/

/-- C1.  The verification helper of the shred executor reports success for
every input: for a path that still exists after removal it evaluates
`not (True == 0)`, which is `True`, and for a missing path the raised
`FileNotFoundError` is converted to `True` by the handler.  So verification
never reports `VerificationFailed`, also when the path still exists,
contradicting the claimed behaviour. -/
theorem verify_shred_always_true : ∀ present : Bool, verify_shred present = true := by
  decide

/-- C5.  The precomputed Gutmann table has exactly 35 entries, and for every
`k` in `0..15` (that is, `0 ≤ k < 15`, matching entries 19 through 33 against
entries 4 through 18), entry `19+k` is the bytewise complement of entry
`4+k`. -/
theorem gutmann_table_shape_and_complements (e : Entropy) :
    (generate_gutmann_patterns e).length = 35 ∧
      ∀ k, k < 15 →
        (generate_gutmann_patterns e).getD (19 + k) [] =
          ((generate_gutmann_patterns e).getD (4 + k) []).map pyCompl := by
  constructor
  · rfl
  · intro k hk
    interval_cases k <;> rfl

/-- Witness for C5 at a concrete entropy source and `k = 0`. -/
theorem gutmann_table_shape_and_complements_witness :
    (generate_gutmann_patterns zeroEntropy).getD 19 [] =
      ((generate_gutmann_patterns zeroEntropy).getD 4 []).map pyCompl := by
  have h := (gutmann_table_shape_and_complements zeroEntropy).2 0 (by decide)
  simpa using h

/-- C3.  A path whose resolved absolute form lies under an entry of the
user-directory allowlist is classified as not protected, for every
protected-directory set, in particular when the path also starts with a
protected entry: the allowlist loop runs before the denylist loop and
returns immediately. -/
theorem is_protected_location_allowlist_overrides
    (home : Str) (protected_dirs : List Str) (abs_path : Str)
    (h : ∃ d ∈ user_dirs home, liesUnder abs_path d = true) :
    is_protected_location home protected_dirs abs_path = false := by
  obtain ⟨d, hd, hlies⟩ := h
  have hs : str_startswith abs_path d = true := liesUnder_startswith _ _ hlies
  unfold is_protected_location
  rw [if_pos]
  exact List.any_eq_true.mpr ⟨d, hd, hs⟩

/-- Witness for C3: with home `/home/alice`, the path
`/home/alice/Documents/etc/secret.txt` lies under the allowlist entry
`/home/alice/Documents` and is not protected, although it starts with the
protected entry `/home` and contains `/etc`. -/
theorem is_protected_location_allowlist_overrides_witness :
    is_protected_location "/home/alice".toList
      ["/home".toList, "/etc".toList]
      "/home/alice/Documents/etc/secret.txt".toList = false :=
  is_protected_location_allowlist_overrides _ _ _ (by decide)

/-- Parameters used for concrete evaluations: the CLI defaults (DoD pattern,
3 passes, verify and metadata destruction on) with chunk size 4. -/
def testParams : ShredParams :=
  ⟨zeroEntropy, some (.listPat dodBlocks), 3, true, true, 4⟩

/-- C7.  Shredding a file whose exclusive lock is held by another process
(and on which the probe itself runs: the file opens for read-write and the
probe hits no unexpected error) fails with the `FileLocked` classification
and returns the file state unchanged: no write is performed and the bytes
are unmodified. -/
theorem shred_file_locked_no_writes (P : ShredParams) (f : FSFile)
    (hp : f.present = true) (ho : f.openRW = true) (hq : f.probeErr = false)
    (hl : f.lockHeld = true) :
    shred_file P f = ⟨false, some .fileLocked, f⟩ := by
  simp [shred_file, is_file_locked, hp, ho, hq, hl]

/-- Witness for C7 at a concrete locked file. -/
theorem shred_file_locked_no_writes_witness :
    shred_file testParams ⟨true, true, true, false, [7, 7]⟩ =
      ⟨false, some .fileLocked, ⟨true, true, true, false, [7, 7]⟩⟩ :=
  shred_file_locked_no_writes testParams _ rfl rfl rfl rfl

/-- C10.  When the lock probe cannot run — the file does not open for
read-write, or an unexpected (non-`IOError`) error occurs during probing —
`is_file_locked` returns `false`, and the shred outcome on such a file is
never the `FileLocked` classification: shredding proceeds past the lock
step. -/
theorem is_file_locked_fails_open (P : ShredParams) (f : FSFile)
    (h : f.openRW = false ∨ f.probeErr = true) :
    is_file_locked f = false ∧
      (shred_file P f).err ≠ some ShredError.fileLocked := by
  obtain ⟨pr, op, lk, pe, ct⟩ := f
  rcases h with h | h
  · subst h
    cases pr <;> simp [is_file_locked, shred_file, verify_shred, pyEqZero]
  · subst h
    cases pr <;> cases op <;>
      simp [is_file_locked, shred_file, verify_shred, pyEqZero]

/-- Witness for C10 at a file that cannot be opened for read-write. -/
theorem is_file_locked_fails_open_witness :
    is_file_locked ⟨true, false, false, false, [1]⟩ = false ∧
      (shred_file testParams ⟨true, false, false, false, [1]⟩).err ≠
        some ShredError.fileLocked :=
  is_file_locked_fails_open testParams _ (Or.inl rfl)

theorem gutmann_getD_len_pos (e : Entropy) (i : Nat) (hi : i < 35) :
    0 < ((generate_gutmann_patterns e).getD i []).length := by
  interval_cases i <;> exact Nat.succ_pos _

/-- C4 amended.  For every catalog pattern, pass index and requested length,
the generator returns a buffer of at least the requested length; the
FixedByte entries (Zero Fill, One Fill) and Random return exactly the
requested length, while the Sequence and Gutmann branches tile the selected
block `length + 1` times and so return more, which the executor truncates at
write time. -/
theorem get_overwrite_pattern_length_at_least (e : Entropy) (p S : Nat)
    (cfg : PatternConfig) (hc : cfg ∈ overwrite_patterns) :
    S ≤ (get_overwrite_pattern e (generate_gutmann_patterns e) (some cfg) p S).length ∧
      ((cfg = .bytesPat [0x00] ∨ cfg = .bytesPat [0xFF] ∨ cfg = .randomPat) →
        (get_overwrite_pattern e (generate_gutmann_patterns e) (some cfg) p S).length
          = S) := by
  fin_cases hc
  · refine ⟨?_, fun _ => ?_⟩ <;> simp [get_overwrite_pattern, pyRepeat_length]
  · refine ⟨?_, fun _ => ?_⟩ <;> simp [get_overwrite_pattern, pyRepeat_length]
  · constructor
    · have h3 : p % 3 = 0 ∨ p % 3 = 1 ∨ p % 3 = 2 := by omega
      rcases h3 with h | h | h <;>
        simp [get_overwrite_pattern, dodBlocks, pyRepeat_length, h]
      omega
    · intro hee
      rcases hee with h | h | h <;> simp at h
  · refine ⟨?_, fun _ => ?_⟩ <;> simp [get_overwrite_pattern, urandomCall]
  · constructor
    · have hlen35 : (generate_gutmann_patterns e).length = 35 := rfl
      have h0 : ((generate_gutmann_patterns e).getD 0 []).length = 1 := rfl
      have hmod : p % 35 < 35 := Nat.mod_lt _ (by omega)
      have hposk := gutmann_getD_len_pos e (p % 35) hmod
      simp only [get_overwrite_pattern]
      rw [pyRepeat_length, hlen35, h0]
      have h1 : (S / 1 + 1) * 1 ≤
          (S / 1 + 1) * ((generate_gutmann_patterns e).getD (p % 35) []).length :=
        Nat.mul_le_mul_left _ hposk
      calc S ≤ (S / 1 + 1) * 1 := by rw [Nat.div_one, Nat.mul_one]; omega
        _ ≤ (S / 1 + 1) * ((generate_gutmann_patterns e).getD (p % 35) []).length := h1
    · intro hee
      rcases hee with h | h | h <;> simp at h

/-- Counterexample for C4 as stated: the DoD Sequence pattern at pass 0 for
requested length 10 returns a buffer of 11 bytes, not 10. -/
theorem get_overwrite_pattern_length_counterexample :
    ¬ ((get_overwrite_pattern zeroEntropy (generate_gutmann_patterns zeroEntropy)
        (some (.listPat dodBlocks)) 0 10).length = 10) := by
  decide

/-- Witness for the amended C4 theorem at the Random pattern. -/
theorem get_overwrite_pattern_length_at_least_witness :
    (get_overwrite_pattern zeroEntropy (generate_gutmann_patterns zeroEntropy)
        (some .randomPat) 0 4).length = 4 :=
  (get_overwrite_pattern_length_at_least zeroEntropy 0 4 .randomPat (by decide)).2
    (Or.inr (Or.inr rfl))

theorem numChunks_eq (S C : Nat) (hC : 0 < C) (hS : 0 < S) :
    numChunks S C = if S % C = 0 then S / C else S / C + 1 := by
  unfold numChunks
  have hqm := Nat.div_add_mod S C
  rcases Nat.eq_zero_or_pos (S % C) with hr | hr
  · rw [if_pos hr]
    have h1 : S + C - 1 = (C - 1) + C * (S / C) := by omega
    rw [h1, Nat.add_mul_div_left _ _ hC, Nat.div_eq_of_lt (by omega)]
    omega
  · rw [if_neg (by omega)]
    have hmul : C * (S / C) + C = C * (S / C + 1) := by ring
    have h1 : S + C - 1 = (S % C - 1) + (C * (S / C) + C) := by
      have hrC : S % C < C := Nat.mod_lt _ hC
      omega
    rw [h1, hmul, Nat.add_mul_div_left _ _ hC,
      Nat.div_eq_of_lt (by have := Nat.mod_lt S hC; omega)]
    omega

theorem last_map_range (f : Nat → List Nat) (n : Nat) (hn : 0 < n) :
    ((List.range n).map f).getLast?.getD [] = f (n - 1) := by
  cases n with
  | zero => omega
  | succ m =>
    rw [List.range_succ, List.map_append]
    simp [List.getLast?_concat]

/-- C8 amended.  With chunk size `C > 0` and a pattern buffer of exactly `S`
bytes (the FixedByte and Random cases), a pass over a file of size
`S > 10*C` performs exactly `ceil(S / C)` writes and its final chunk has
length `S mod C` (or `C` when `S` is an exact multiple of `C`); a file of
size `S ≤ 10*C` is written with a single write of the `S`-byte truncated
pattern instead. -/
theorem writes_per_pass_chunking (pattern : List Nat) (S C : Nat)
    (hC : 0 < C) (hlen : pattern.length = S) :
    (S ≤ C * 10 → writesForPass pattern S C = [pattern.take S]) ∧
    (C * 10 < S →
      (writesForPass pattern S C).length = numChunks S C ∧
      ((writesForPass pattern S C).getLast?.getD []).length
        = if S % C = 0 then C else S % C) := by
  constructor
  · intro hS
    unfold writesForPass
    rw [if_neg (by omega)]
  · intro hS
    have hS0 : 0 < S := by omega
    have hqm := Nat.div_add_mod S C
    have hrC : S % C < C := Nat.mod_lt _ hC
    have hn : 0 < numChunks S C := by
      rw [numChunks_eq S C hC hS0]
      rcases Nat.eq_zero_or_pos (S % C) with hr | hr
      · rw [if_pos hr]
        rcases Nat.eq_zero_or_pos (S / C) with h0 | h0
        · rw [h0, Nat.mul_zero] at hqm; omega
        · exact h0
      · rw [if_neg (by omega)]; exact Nat.succ_pos _
    unfold writesForPass
    rw [if_pos hS]
    refine ⟨by simp, ?_⟩
    rw [last_map_range _ _ hn]
    have hp1 : 1 < pattern.length := by omega
    unfold chunkAt
    rw [if_pos hp1, List.length_take, List.length_drop, hlen]
    rcases Nat.eq_zero_or_pos (S % C) with hr | hr
    · have hn' : numChunks S C = S / C := by
        rw [numChunks_eq S C hC hS0, if_pos hr]
      have h2 : (S / C - 1) * C = (S / C) * C - C := by
        rw [tsub_mul, one_mul]
      have h3 : (S / C) * C = C * (S / C) := Nat.mul_comm _ _
      have hval : S - (S / C - 1) * C = C := by
        rw [h2, h3]; omega
      rw [hn', hval, hr]
      simp
    · have hn' : numChunks S C = S / C + 1 := by
        rw [numChunks_eq S C hC hS0, if_neg (by omega)]
      have h4 : (S / C + 1 - 1) * C = C * (S / C) := by
        rw [Nat.add_sub_cancel, Nat.mul_comm]
      have hval : S - (S / C + 1 - 1) * C = S % C := by
        rw [h4]; omega
      rw [hn', hval, if_neg (by omega), inf_eq_right]
      omega

/-- Counterexample for C8 as stated: a Zero Fill shred of a 5-byte file with
chunk size 1 performs one write per pass, not `ceil(5 / 1) = 5` writes,
because the source only chunks when the file exceeds ten chunk sizes. -/
theorem writes_per_pass_counterexample :
    ¬ ((writesForPass
        (get_overwrite_pattern zeroEntropy (generate_gutmann_patterns zeroEntropy)
          (some (.bytesPat [0x00])) 0 5) 5 1).length = numChunks 5 1) := by
  decide

/-- Witness for the amended C8 theorem: size 25, chunk size 2, so 13 writes
and a final chunk of one byte. -/
theorem writes_per_pass_chunking_witness :
    (writesForPass (List.replicate 25 0) 25 2).length = numChunks 25 2 ∧
      ((writesForPass (List.replicate 25 0) 25 2).getLast?.getD []).length = 1 := by
  have h := (writes_per_pass_chunking (List.replicate 25 0) 25 2
    (by decide) (by decide)).2 (by decide)
  simpa using h

/-- C6.  For every batch, worker count and completion order, every submitted
request yields exactly one outcome (the consumed result stream has one entry
per file, and `shred_file` returns a boolean instead of raising), and the
reported counts satisfy `succeeded + failed = K`. -/
theorem shred_files_threaded_counts (P : ShredParams) (max_workers : Nat)
    (files : List FSFile) (order : List Nat)
    (hord : order.Perm (List.range files.length)) :
    (batch_outcomes P max_workers files order).length = files.length ∧
      (shred_files_threaded P max_workers files order).1 +
        (shred_files_threaded P max_workers files order).2 = files.length := by
  have hlen : (batch_outcomes P max_workers files order).length = files.length := by
    unfold batch_outcomes
    split
    · simp [hord.length_eq]
    · simp
  refine ⟨hlen, ?_⟩
  show (batch_outcomes P max_workers files order).count true +
      (batch_outcomes P max_workers files order).count false = files.length
  rw [count_true_add_count_false, hlen]

/-- Witness for C6: two files (one shredded, one locked), four workers, the
completion order reversed. -/
theorem shred_files_threaded_counts_witness :
    (batch_outcomes testParams 4
        [⟨true, true, false, false, [1, 2, 3]⟩, ⟨true, true, true, false, [9]⟩]
        [1, 0]).length = 2 ∧
      (shred_files_threaded testParams 4
          [⟨true, true, false, false, [1, 2, 3]⟩, ⟨true, true, true, false, [9]⟩]
          [1, 0]).1 +
        (shred_files_threaded testParams 4
          [⟨true, true, false, false, [1, 2, 3]⟩, ⟨true, true, true, false, [9]⟩]
          [1, 0]).2 = 2 :=
  shred_files_threaded_counts testParams 4 _ _ (by decide)

/-- C2 amended.  The temporary fill file is handed to the shred executor
exactly when the fill step completes without raising; when the fill loop is
interrupted (as happens whenever the final short chunk request
`min(chunk_size, wipe_size - tell)` is a fractional float, which
`os.urandom` rejects), the handler returns failure and the temporary file is
left behind un-shredded. -/
theorem wipe_free_space_temp_shredded_iff_fill_completed
    (P : ShredParams) (freeQuery : Option Int) :
    (wipe_free_space P freeQuery).tempShredded =
      (wipe_free_space P freeQuery).fillCompleted := by
  cases freeQuery with
  | none => rfl
  | some free =>
    by_cases h0 : free ≤ 0
    · simp [wipe_free_space, h0]
    · by_cases hf : (fillTotal P.chunk_size (free.toNat * 19)).2
      · simp [wipe_free_space, h0, hf]
      · simp [wipe_free_space, h0, hf]

/-- Counterexample for C2 as stated: wiping a volume with 7 reported free
bytes and chunk size 4 creates the temporary file, the fill loop aborts on
the fractional final request (`min(4, 6.65 - 4)` is the float `2.65`), and
the temporary file is never handed to the shred executor. -/
theorem wipe_free_space_leaves_temp_after_fill_error :
    (wipe_free_space testParams (some 7)).tempCreated = true ∧
      (wipe_free_space testParams (some 7)).tempShredded = false := by
  decide

theorem wipe_fill_go_le (C ws20 : Nat) :
    ∀ k t, t * 20 ≤ ws20 → (fill_go C ws20 k t).1 * 20 ≤ ws20 := by
  intro k
  induction k with
  | zero => intro t ht; exact ht
  | succ k ih =>
    intro t ht
    unfold fill_go
    split
    next h => exact ih (t + C) (by omega)
    next h => exact ht

/-- C9.  The fill step never requests more than 95 percent of the reported
free bytes (stated exactly: total requested times 20 is at most the report
times 19, the float arithmetic of the source being modeled as exact), and
when the free-space query fails or reports a non-positive value the
operation fails before the temporary file is created. -/
theorem wipe_free_space_bounds (P : ShredParams) (freeQuery : Option Int) :
    (∀ free, freeQuery = some free →
        (wipe_free_space P freeQuery).totalRequested * 20 ≤ free.toNat * 19) ∧
      ((freeQuery = none ∨ ∃ free, freeQuery = some free ∧ free ≤ 0) →
        (wipe_free_space P freeQuery).success = false ∧
          (wipe_free_space P freeQuery).tempCreated = false) := by
  constructor
  · intro free hfq
    subst hfq
    by_cases h0 : free ≤ 0
    · simp [wipe_free_space, h0]
    · have hfill := wipe_fill_go_le P.chunk_size (free.toNat * 19)
        (numChunks ((free.toNat * 19) / 20) P.chunk_size) 0 (by omega)
      by_cases hf : (fillTotal P.chunk_size (free.toNat * 19)).2
      · simp [wipe_free_space, h0, hf]
        exact hfill
      · simp [wipe_free_space, h0, hf]
        exact hfill
  · intro h
    rcases h with h | ⟨free, hfq, hle⟩
    · subst h
      exact ⟨rfl, rfl⟩
    · subst hfq
      simp [wipe_free_space, hle]

/-- Witness for C9: with 7 reported free bytes the requested total respects
the bound, and a report of 0 fails without creating the temporary file. -/
theorem wipe_free_space_bounds_witness :
    (wipe_free_space testParams (some 7)).totalRequested * 20 ≤ (7 : Int).toNat * 19 ∧
      (wipe_free_space testParams (some 0)).success = false ∧
        (wipe_free_space testParams (some 0)).tempCreated = false :=
  ⟨(wipe_free_space_bounds testParams (some 7)).1 7 rfl,
    (wipe_free_space_bounds testParams (some 0)).2 (Or.inr ⟨0, rfl, le_refl 0⟩)⟩

end Shredder
